import Mathlib

/-!
# Verification of the clh CLI configuration resolver

Shallow embedding of `src/clh-cli.go` and `src/cli/root.go` (package `cli`),
a cobra/viper based command-line tool.  The embedding models:

* the viper layered key/value store (bound pflags, automatic environment
  variables with prefix `CLH`, the merged config-file layer, and defaults),
  with viper's documented lookup precedence
  (changed flag > env > config > default > unchanged flag's default value);
* the two resolution phases (`viperFirstPhase`, `cobraSecondPhase`,
  `viperSecondPhase` in `root.go`);
* the `config` command (which calls `viper.WriteConfigAs(fileName + ".test.yaml")`)
  and the `use-context` command (which re-reads the config file, replaces the
  top-level `context` key and writes the file back);
* `logrus.ParseLevel` and the `setLogLevel` helper.

Config keys are modelled as dotted lowercase strings (viper lowercases keys;
every key this program uses is already lowercase).  Config files are modelled
by their parsed YAML content: a top-level map whose values are either scalars
or one further map level, which is the schema this program reads and writes
(global scalar keys plus per-context maps).  The process environment and the
file system are explicit function parameters.
-/

namespace Clh

/-! ## Association-list primitives -/

/-- Insert-or-replace for an association list, keeping the position of an
existing key and appending a missing key at the end.  This is the observable
effect of a Go `map` update followed by serialization, and of viper's
per-key overwrite on merge. -/
def assocSet (m : List (String × α)) (k : String) (v : α) : List (String × α) :=
  match m with
  | [] => [(k, v)]
  | (k', v') :: rest => if k' == k then (k, v) :: rest else (k', v') :: assocSet rest k v

/-! ## Parsed YAML files

A config file is modelled by its parsed content: top-level keys mapping to
either a scalar or one nested map (the per-context namespaces).  This is the
schema the tool reads and writes. -/

/-- A top-level YAML value in a clh config file: a scalar or a per-context
nested mapping of scalars. -/
inductive TopVal where
  | str : String → TopVal
  | map : List (String × String) → TopVal
deriving DecidableEq, Repr

/-- A parsed config file: the top-level YAML mapping. -/
abbrev YMap := List (String × TopVal)

/-- Flatten a parsed file into viper's dotted-key form
(`ctx.endpoint` for a nested entry), preserving order. -/
def flattenTop : YMap → List (String × String)
  | [] => []
  | (k, .str v) :: rest => (k, v) :: flattenTop rest
  | (k, .map m) :: rest => (m.map (fun p => (k ++ "." ++ p.1, p.2))) ++ flattenTop rest

/-- The process file system, restricted to what the program observes: each
path either holds a readable, parseable YAML mapping or does not (missing,
unreadable and unparseable files are all observed the same way by this
program: as a failed read or parse). -/
abbrev FS := String → Option YMap

/-- The process environment. -/
abbrev EnvF := String → Option String

/-- ASCII uppercase conversion (the effect of Go `strings.ToUpper` on the
ASCII keys this program uses). -/
def upperAscii (s : String) : String := ⟨s.data.map Char.toUpper⟩

/-- ASCII lowercase conversion (the effect of Go `strings.ToLower` on the
ASCII level names logrus recognizes). -/
def lowerAscii (s : String) : String := ⟨s.data.map Char.toLower⟩

/-! ## The logrus logging levels and `setLogLevel` (root.go lines 214-221) -/

/-- The logrus severity levels. -/
inductive Level where
  | panicL | fatal | error | warn | info | debug | trace
deriving DecidableEq, Repr

/-- Numeric logrus level: higher means more verbose
(PanicLevel = 0 up to TraceLevel = 6). -/
def Level.verbosity : Level → Nat
  | .panicL => 0
  | .fatal => 1
  | .error => 2
  | .warn => 3
  | .info => 4
  | .debug => 5
  | .trace => 6

/-- Model of `logrus.ParseLevel`: lowercases its input and matches the recognized
level names; unrecognized strings are an error (`none`). -/
def parseLevel (s : String) : Option Level :=
  if lowerAscii s = "panic" then some .panicL
  else if lowerAscii s = "fatal" then some .fatal
  else if lowerAscii s = "error" then some .error
  else if lowerAscii s = "warn" then some .warn
  else if lowerAscii s = "warning" then some .warn
  else if lowerAscii s = "info" then some .info
  else if lowerAscii s = "debug" then some .debug
  else if lowerAscii s = "trace" then some .trace
  else none

/-- Outcome of one `setLogLevel` call: the level handed to `log.SetLevel`,
whether an error-severity diagnostic was emitted, and whether the process
aborted. -/
structure LogOutcome where
  level : Level
  errorLogged : Bool
  aborted : Bool
deriving DecidableEq, Repr

/-- Model of `setLogLevel` in root.go: parse the stored `log_level` string; on parse
failure fall back to `log.DebugLevel` and log an error, never aborting. -/
def setLogLevel (s : String) : LogOutcome :=
  match parseLevel s with
  | some l => ⟨l, false, false⟩
  | none => ⟨.debug, true, false⟩

/-! ## The viper layered store -/

/-- A bound pflag as viper sees it: its current value, whether it was
explicitly set on the command line (`Changed`), and its registration-time
default value (every flag in this program is registered with default `""`). -/
structure Flag where
  value : String
  changed : Bool
  defValue : String
deriving DecidableEq, Repr

/-- Build the `Flag` state from an optional command-line occurrence:
`some v` means the flag was given (so `Changed` is true), `none` means it
kept its registration default `""`. -/
def mkFlag : Option String → Flag
  | some v => ⟨v, true, ""⟩
  | none => ⟨"", false, ""⟩

/-- The viper singleton's state, restricted to the features this program
uses: bound pflags, the merged config-file layer (dotted keys), and
defaults.  `AutomaticEnv` with the `CLH` env name prefix is active once
`viperFirstPhase` has run, so the environment is consulted directly in
`find`. -/
structure Viper where
  pflags : List (String × Flag)
  config : List (String × String)
  defaults : List (String × String)
deriving DecidableEq, Repr

/-- The environment variable viper consults for a key (viper's
`mergeWithEnvPrefix`): `"CLH_" ++ key` uppercased (no key replacer is
installed, so dots stay). -/
def clhEnvName (key : String) : String := "CLH_" ++ upperAscii key

/-- Viper's `find`, restricted to the sources this program uses, in viper's
documented precedence order: explicitly-changed pflag, then automatic
environment variable, then the merged config layer, then defaults, and as a
last resort the default value of a bound-but-unchanged pflag. -/
def Viper.find (v : Viper) (env : EnvF) (key : String) : Option String :=
  match v.pflags.lookup key with
  | some f =>
    if f.changed then some f.value
    else
      match env (clhEnvName key) with
      | some e => some e
      | none =>
        match v.config.lookup key with
        | some c => some c
        | none =>
          match v.defaults.lookup key with
          | some d => some d
          | none => some f.defValue
  | none =>
    match env (clhEnvName key) with
    | some e => some e
    | none =>
      match v.config.lookup key with
      | some c => some c
      | none => v.defaults.lookup key

/-- Model of `viper.GetString`: `find`, with missing keys read as `""`. -/
def Viper.getString (v : Viper) (env : EnvF) (key : String) : String :=
  (v.find env key).getD ""

/-- Model of `viper.MergeInConfig` and `MergeConfigMap` on the (flattened) config
layer: every key of the newly read file overwrites the layer's previous
value for that key, other keys are kept. -/
def mergeEntries (cfg new : List (String × String)) : List (String × String) :=
  new.foldl (fun acc p => assocSet acc p.1 p.2) cfg

/-- Model of `viper.AllKeys`, restricted to the sources this program uses: keys known
from bound pflags, the config layer and defaults (automatic-environment keys
are not enumerable and do not appear). -/
def allKeys (v : Viper) : List String :=
  (v.pflags.map Prod.fst ++ v.config.map Prod.fst ++ v.defaults.map Prod.fst).dedup

/-- Model of `viper.AllSettings` (what `WriteConfigAs` serializes), in flattened
form: every known key paired with its fully resolved value. -/
def allSettings (v : Viper) (env : EnvF) : List (String × String) :=
  (allKeys v).filterMap (fun k => (v.find env k).map (fun val => (k, val)))

/-! ## The program: flag registration and the two resolution phases
(root.go `init`, `viperFirstPhase`, `cobraSecondPhase`, `viperSecondPhase`) -/

/-- The command line of one invocation: each field is `some v` when the
corresponding flag occurs (`--log_level`, `--config`, `--context` globally;
`--endpoint`, `--username`, `--secret_key` on the `config` command, with
their one-letter short forms), `none` when absent. -/
structure CliInput where
  logLevelFlag : Option String
  configFlag : Option String
  contextFlag : Option String
  endpointFlag : Option String
  usernameFlag : Option String
  secretKeyFlag : Option String
deriving DecidableEq, Repr

/-- An invocation with no flags at all. -/
def cliNone : CliInput := ⟨none, none, none, none, none, none⟩

/-- The viper state right after `init` in root.go: the three global flags
are bound, `log_level` defaults to `"info"` and `context` to `"default"`;
the config layer is still empty. -/
def initViper (cli : CliInput) : Viper :=
  { pflags := [("log_level", mkFlag cli.logLevelFlag),
               ("config", mkFlag cli.configFlag),
               ("context", mkFlag cli.contextFlag)],
    config := [],
    defaults := [("log_level", "info"), ("context", "default")] }

/-- The ordered config search locations registered in `viperFirstPhase`
(`/etc/clh/`, `<home>/.clh`, `./.clh`), with the fixed file name `config`
and type `yaml`. -/
def searchPaths (home : String) : List String :=
  ["/etc/clh/config.yaml", home ++ "/.clh/config.yaml", "./.clh/config.yaml"]

/-- Config discovery: the first search path holding a readable file.  A miss
is only logged at debug severity. -/
def discoverConfig (home : String) (fs : FS) : Option String :=
  (searchPaths home).find? (fun p => (fs p).isSome)

/-- Model of `viperFirstPhase` (root.go lines 146-172): bind the environment (always
consulted by `Viper.find` afterwards), resolve the home directory, register
the search path and merge the first discovered config file into the store.
Returns the viper state and `viper.ConfigFileUsed()` (`""` when no file was
found).  The two `setLogLevel` calls do not change the store. -/
def viperFirstPhase (cli : CliInput) (home : String) (fs : FS) : Viper × String :=
  let v0 := initViper cli
  match discoverConfig home fs with
  | some p => ({ v0 with config := mergeEntries v0.config (flattenTop ((fs p).getD [])) }, p)
  | none => (v0, "")

/-- The viper state after `cobraSecondPhase`'s second `MergeInConfig`
(root.go lines 174-187): with `--config <path>` the explicitly named file is
merged over the phase-one layer (a miss is only a debug log); without it the
discovered file is re-read and re-merged. -/
def cobraMergedViper (cli : CliInput) (home : String) (fs : FS) : Viper :=
  let v1 := (viperFirstPhase cli home fs).1
  let cfgFile := cli.configFlag.getD ""
  if cfgFile = "" then
    match discoverConfig home fs with
    | some p => { v1 with config := mergeEntries v1.config (flattenTop ((fs p).getD [])) }
    | none => v1
  else
    match fs cfgFile with
    | some m => { v1 with config := mergeEntries v1.config (flattenTop m) }
    | none => v1

/-- Model of `viper.ConfigFileUsed()` as of `viperSecondPhase`: the `--config` path
when that flag was given (`SetConfigFile` records it unconditionally), else
the discovered path, else `""`. -/
def usedFile (cli : CliInput) (home : String) (fs : FS) : String :=
  let cfgFile := cli.configFlag.getD ""
  if cfgFile = "" then (viperFirstPhase cli home fs).2 else cfgFile

/-- The active context resolved in `cobraSecondPhase` (root.go lines
189-191): the `context` flag variable if non-empty, else
`viper.GetString("context")` on the merged state. -/
def activeCtx (cli : CliInput) (home : String) (env : EnvF) (fs : FS) : String :=
  let ctxVar := cli.contextFlag.getD ""
  if ctxVar = "" then (cobraMergedViper cli home fs).getString env "context" else ctxVar

/-- Model of `viperSecondPhase` (root.go lines 197-212): default `config` to the used
file (or `<home>/.clh/config.yaml` when none), bind the `endpoint` flag
under the active context with the fixed default endpoint URL, and bind the
`secret_key` flag under the active context.  The `username` flag is never
bound. -/
def viperSecondPhase (cli : CliInput) (home used ctx : String) (v : Viper) : Viper :=
  { v with
    defaults :=
      assocSet
        (assocSet v.defaults "config"
          (if used = "" then home ++ "/.clh/config.yaml" else used))
        (ctx ++ ".endpoint") "https://api.cloudlethub.com/",
    pflags :=
      assocSet
        (assocSet v.pflags (ctx ++ ".endpoint") (mkFlag cli.endpointFlag))
        (ctx ++ ".secret_key") (mkFlag cli.secretKeyFlag) }

/-- The state cobra hands to a command's `Run`: the fully resolved viper
store, `viper.ConfigFileUsed()`, and the resolved active context. -/
structure Resolved where
  viper : Viper
  configFileUsed : String
  activeContext : String
deriving DecidableEq, Repr

/-- The full resolution pipeline of one invocation, as run before any
command body: `init` and `viperFirstPhase` at package initialization, then
`cobraSecondPhase` (which ends in `viperSecondPhase`) from
`cobra.OnInitialize`. -/
def resolveInvocation (cli : CliInput) (home : String) (env : EnvF) (fs : FS) :
    Resolved :=
  let v2 := cobraMergedViper cli home fs
  let used := usedFile cli home fs
  let ctx := activeCtx cli home env fs
  ⟨viperSecondPhase cli home used ctx v2, used, ctx⟩

/-! ## The commands -/

/-- A file write performed by a command: target path and (flattened)
serialized contents. -/
structure WriteAction where
  path : String
  contents : List (String × String)
deriving DecidableEq, Repr

/-- The `config` command (root.go lines 94-105): resolve
`viper.GetString("config")` and call `viper.WriteConfigAs` on that path
with `".test.yaml"` appended, serializing the entire resolved store.  (The
write aborts the process on any I/O error; no directory is created.) -/
def configCmdRun (cli : CliInput) (home : String) (env : EnvF) (fs : FS) :
    WriteAction :=
  let r := resolveInvocation cli home env fs
  let fileName := r.viper.getString env "config"
  ⟨fileName ++ ".test.yaml", allSettings r.viper env⟩

/-- Observable outcome of the `use-context` command: either the file write
it performs, or an abort (`log.Panic`, which logs the failure at panic
severity and terminates the process with a non-zero status before any file
is created or written). -/
inductive UseContextOutcome where
  | wrote : String → YMap → UseContextOutcome
  | abort : UseContextOutcome
deriving DecidableEq, Repr

/-- The `use-context` command (root.go lines 40-92): take the positional
argument if present (else the resolved active context), open and parse the
file at `viper.GetString("config")` — aborting if it cannot be opened, read
or parsed — replace the top-level `context` key in the parsed map, and
write the map back to the same path. -/
def useContextRun (args : List String) (cli : CliInput) (home : String)
    (env : EnvF) (fs : FS) : UseContextOutcome :=
  let r := resolveInvocation cli home env fs
  let ctx := match args with
    | [] => r.activeContext
    | a :: _ => a
  let fileName := r.viper.getString env "config"
  match fs fileName with
  | none => .abort
  | some cfg => .wrote fileName (assocSet cfg "context" (.str ctx))

/-! ## Scenario helpers -/

/-- An empty environment. -/
def envNone : EnvF := fun _ => none

/-- An environment defining exactly one variable. -/
def envOf (k v : String) : EnvF := fun q => if q = k then some v else none

/-- An environment optionally defining one variable. -/
def envOpt (k : String) (v : Option String) : EnvF :=
  fun q => if q = k then v else none

/-- A file system with no readable config file at all. -/
def fsEmpty : FS := fun _ => none

/-- A file system holding exactly one file. -/
def fsOf (p : String) (m : YMap) : FS := fun q => if q = p then some m else none

/-- The resolution rule claimed by the spec for C1, stated from the spec's
words: per key, CLI flag beats the explicit `--config` file, which beats the
discovered file, which beats the environment variable, which beats the
built-in default.  Used only to compare the spec's claimed precedence with
the code's. -/
def specResolve (flagV explicitV discoveredV envV defaultV : Option String) :
    Option String :=
  flagV.or (explicitV.or (discoveredV.or (envV.or defaultV)))

/-! ## Concrete scenarios used by the claims -/

/-- The C1 scenario command line: an optional `--log_level` flag, and
`--config /x/cfg.yaml` exactly when an explicit-file value is under test. -/
def cliC1 (fv xv : Option String) : CliInput :=
  { cliNone with
    logLevelFlag := fv
    configFlag := xv.map (fun _ => "/x/cfg.yaml") }

/-- The C1 scenario file system: the discovered standard-path file and the
explicit `--config` file each carry a `log_level` entry exactly when the
corresponding optional source value is present. -/
def fsC1 (dv xv : Option String) : FS := fun q =>
  if q = "/h/.clh/config.yaml" then dv.map (fun v => [("log_level", TopVal.str v)])
  else if q = "/x/cfg.yaml" then xv.map (fun v => [("log_level", TopVal.str v)])
  else none

/-- The C2 scenario command line:
`clh config -e https://x -u bob -k secret -c staging`. -/
def cliC2 : CliInput :=
  { cliNone with
    contextFlag := some "staging"
    endpointFlag := some "https://x"
    usernameFlag := some "bob"
    secretKeyFlag := some "secret" }

/-- A previously persisted file holding another context's keys. -/
def priorC2 : YMap :=
  [("prod", .map [("endpoint", "https://prod.example"), ("username", "alice"),
    ("secret_key", "ps")])]

/-- What `clh config -e https://x -u bob -k secret -c staging` actually
persists, starting from a previously persisted file `prior` discovered at
`/h/.clh/config.yaml` and a clean environment: the write goes to the
resolved path with `".test.yaml"` appended; `staging.endpoint` and
`staging.secret_key` carry the flag values; `staging.username` keeps
whatever the prior file had (the `--username` flag is never bound); and
every prior key other than the global keys and the two bound staging keys
is written back unchanged. -/
def C2Spec (prior : YMap) : Prop :=
  (configCmdRun cliC2 "/h" envNone (fsOf "/h/.clh/config.yaml" prior)).path
      = "/h/.clh/config.yaml.test.yaml"
  ∧ (configCmdRun cliC2 "/h" envNone (fsOf "/h/.clh/config.yaml" prior)).contents.lookup
      "staging.endpoint" = some "https://x"
  ∧ (configCmdRun cliC2 "/h" envNone (fsOf "/h/.clh/config.yaml" prior)).contents.lookup
      "staging.secret_key" = some "secret"
  ∧ (configCmdRun cliC2 "/h" envNone (fsOf "/h/.clh/config.yaml" prior)).contents.lookup
      "staging.username" = (flattenTop prior).lookup "staging.username"
  ∧ ∀ k v, (flattenTop prior).lookup k = some v →
      k ∉ (["log_level", "config", "context", "staging.endpoint",
        "staging.secret_key"] : List String) →
      (configCmdRun cliC2 "/h" envNone (fsOf "/h/.clh/config.yaml" prior)).contents.lookup
        k = some v

/-- The C4 scenario command line: `clh use-context foo --log_level debug`. -/
def cliC4 : CliInput := { cliNone with logLevelFlag := some "debug" }

/-- The C4 scenario previously persisted file. -/
def priorC4 : YMap := [("log_level", TopVal.str "info")]

/-- The C5 round trip: running `use-context foo` on a previously persisted
file rewrites it with `context: foo`, and a fresh invocation with no
context flag on the rewritten file resolves the active context to `foo`. -/
def C5Spec (cfg : YMap) : Prop :=
  useContextRun ["foo"] cliNone "/h" envNone (fsOf "/h/.clh/config.yaml" cfg)
    = .wrote "/h/.clh/config.yaml" (assocSet cfg "context" (TopVal.str "foo"))
  ∧ (resolveInvocation cliNone "/h" envNone
      (fsOf "/h/.clh/config.yaml" (assocSet cfg "context" (TopVal.str "foo")))).activeContext
    = "foo"

/-- The C5 witness file. -/
def cfgC5 : YMap := [("prod", .map [("endpoint", "https://prod.example")])]

/-- The C7 scenario command line: `clh config -c staging` with optional
endpoint, username and secret key flags. -/
def cliC7 (ev eu es : Option String) : CliInput :=
  { cliNone with
    contextFlag := some "staging"
    endpointFlag := ev
    usernameFlag := eu
    secretKeyFlag := es }

/-- The C8 witness file. -/
def priorC8 : YMap :=
  [("log_level", TopVal.str "info"), ("prod", .map [("endpoint", "e")]),
   ("context", TopVal.str "prod")]

/-- The C10 scenario file. -/
def cfgC10 : YMap := [("context", TopVal.str "prod")]

/-- What the active context resolves to (C10, amended): a given context
flag wins verbatim — even when its value is the empty string — and an
absent flag falls back to `CLH_CONTEXT`, then the file's `context` key,
then `"default"`. -/
def C10Spec (co e : Option String) (cfg : YMap) : Prop :=
  (resolveInvocation { cliNone with contextFlag := co } "/h"
      (envOpt "CLH_CONTEXT" e) (fsOf "/h/.clh/config.yaml" cfg)).activeContext
    = match co with
      | some v => v
      | none => (e.or ((flattenTop cfg).lookup "context")).getD "default"

/-! ## Lemmas about association lists, merging and `allSettings` -/

@[simp]
theorem assocSet_lookup_self (m : List (String × α)) (k : String) (v : α) :
    (assocSet m k v).lookup k = some v := by
  induction m with
  | nil => simp [assocSet, List.lookup]
  | cons p rest ih =>
    obtain ⟨k', v'⟩ := p
    by_cases h : k' = k
    · simp [assocSet, h, List.lookup]
    · simp [assocSet, beq_eq_false_iff_ne.mpr h, List.lookup,
        beq_eq_false_iff_ne.mpr (Ne.symm h), ih]

@[simp]
theorem assocSet_lookup_ne (m : List (String × α)) (k : String) (v : α)
    (j : String) (hj : j ≠ k) : (assocSet m k v).lookup j = m.lookup j := by
  induction m with
  | nil => simp [assocSet, List.lookup, beq_eq_false_iff_ne.mpr hj]
  | cons p rest ih =>
    obtain ⟨k', v'⟩ := p
    by_cases h : k' = k
    · subst h
      simp [assocSet, List.lookup, beq_eq_false_iff_ne.mpr hj]
    · by_cases h2 : j = k'
      · subst h2
        simp [assocSet, beq_eq_false_iff_ne.mpr h, List.lookup]
      · simp [assocSet, beq_eq_false_iff_ne.mpr h, List.lookup,
          beq_eq_false_iff_ne.mpr h2, ih]

theorem mem_keys_of_lookup {m : List (String × α)} {j : String} {v : α}
    (h : m.lookup j = some v) : j ∈ m.map Prod.fst := by
  induction m with
  | nil => simp [List.lookup] at h
  | cons p rest ih =>
    obtain ⟨k', v'⟩ := p
    by_cases hk : j = k'
    · simp [hk]
    · simp only [List.lookup, beq_eq_false_iff_ne.mpr hk] at h
      simp [ih h]

theorem lookup_eq_none_of_not_mem {m : List (String × α)} {j : String}
    (h : j ∉ m.map Prod.fst) : m.lookup j = none := by
  induction m with
  | nil => simp [List.lookup]
  | cons p rest ih =>
    obtain ⟨k', v'⟩ := p
    simp only [List.map_cons, List.mem_cons, not_or] at h
    simp [List.lookup, beq_eq_false_iff_ne.mpr h.1, ih h.2]

theorem not_mem_keys_of_lookup_eq_none {m : List (String × α)} {j : String}
    (h : m.lookup j = none) : j ∉ m.map Prod.fst := by
  induction m with
  | nil => simp
  | cons p rest ih =>
    obtain ⟨k', v'⟩ := p
    by_cases hk : j = k'
    · subst hk
      simp [List.lookup] at h
    · simp only [List.lookup, beq_eq_false_iff_ne.mpr hk] at h
      simp [hk, ih h]

theorem lookup_of_mem_nodup {m : List (String × α)} {k : String} {v : α}
    (hnd : (m.map Prod.fst).Nodup) (hm : (k, v) ∈ m) : m.lookup k = some v := by
  induction m with
  | nil => simp at hm
  | cons p rest ih =>
    obtain ⟨k', v'⟩ := p
    simp only [List.map_cons, List.nodup_cons] at hnd
    rcases List.mem_cons.mp hm with h | h
    · cases h
      simp [List.lookup]
    · have hk : k ≠ k' := by
        intro he
        subst he
        exact hnd.1 (List.mem_map.mpr ⟨(k, v), h, rfl⟩)
      simp [List.lookup, beq_eq_false_iff_ne.mpr hk, ih hnd.2 h]

theorem assocSet_keys_mem (m : List (String × α)) (k : String) (v : α) (j : String) :
    j ∈ (assocSet m k v).map Prod.fst ↔ j ∈ m.map Prod.fst ∨ j = k := by
  induction m with
  | nil => simp [assocSet]
  | cons p rest ih =>
    obtain ⟨k', v'⟩ := p
    by_cases h : k' = k
    · subst h
      simp only [assocSet, beq_self_eq_true, if_pos]
      constructor
      · rintro h2
        rcases List.mem_cons.mp h2 with h2 | h2
        · exact Or.inr h2
        · exact Or.inl (by simp [h2])
      · rintro (h2 | h2)
        · rcases List.mem_cons.mp h2 with h2 | h2
          · exact List.mem_cons.mpr (Or.inl (h2.trans rfl))
          · exact List.mem_cons.mpr (Or.inr h2)
        · exact List.mem_cons.mpr (Or.inl h2)
    · simp only [assocSet, beq_eq_false_iff_ne.mpr h, if_neg]
      simp only [List.map, List.mem_cons, ih]
      tauto

theorem assocSet_mem_self (m : List (String × α)) (k : String) (v : α) :
    (k, v) ∈ assocSet m k v := by
  induction m with
  | nil => simp [assocSet]
  | cons p rest ih =>
    obtain ⟨k', v'⟩ := p
    by_cases h : k' = k
    · simp [assocSet, h]
    · simp only [assocSet, beq_eq_false_iff_ne.mpr h, if_neg]
      exact List.mem_cons.mpr (Or.inr ih)

theorem mergeEntries_lookup_not_mem {new : List (String × String)}
    {j : String} (h : j ∉ new.map Prod.fst) (cfg : List (String × String)) :
    (mergeEntries cfg new).lookup j = cfg.lookup j := by
  induction new generalizing cfg with
  | nil => rfl
  | cons p rest ih =>
    obtain ⟨k, v⟩ := p
    simp only [List.map_cons, List.mem_cons, not_or] at h
    simp only [mergeEntries, List.foldl_cons]
    rw [show (List.foldl (fun acc p => assocSet acc p.1 p.2) (assocSet cfg k v) rest)
        = mergeEntries (assocSet cfg k v) rest from rfl]
    rw [ih h.2, assocSet_lookup_ne _ _ _ _ h.1]

theorem mergeEntries_lookup_some {new : List (String × String)}
    {j : String} {v : String} (hnd : (new.map Prod.fst).Nodup)
    (h : new.lookup j = some v) (cfg : List (String × String)) :
    (mergeEntries cfg new).lookup j = some v := by
  induction new generalizing cfg with
  | nil => simp [List.lookup] at h
  | cons p rest ih =>
    obtain ⟨k, w⟩ := p
    simp only [List.map_cons, List.nodup_cons] at hnd
    simp only [mergeEntries, List.foldl_cons]
    rw [show (List.foldl (fun acc p => assocSet acc p.1 p.2) (assocSet cfg k w) rest)
        = mergeEntries (assocSet cfg k w) rest from rfl]
    by_cases hk : j = k
    · subst hk
      simp only [List.lookup, beq_self_eq_true] at h
      cases h
      rw [mergeEntries_lookup_not_mem hnd.1, assocSet_lookup_self]
    · simp only [List.lookup, beq_eq_false_iff_ne.mpr hk] at h
      exact ih hnd.2 h _

theorem mergeEntries_keys_mem (cfg new : List (String × String)) (j : String) :
    j ∈ (mergeEntries cfg new).map Prod.fst ↔
      j ∈ cfg.map Prod.fst ∨ j ∈ new.map Prod.fst := by
  induction new generalizing cfg with
  | nil => simp [mergeEntries]
  | cons p rest ih =>
    obtain ⟨k, v⟩ := p
    simp only [mergeEntries, List.foldl_cons]
    rw [show (List.foldl (fun acc p => assocSet acc p.1 p.2) (assocSet cfg k v) rest)
        = mergeEntries (assocSet cfg k v) rest from rfl]
    rw [ih, assocSet_keys_mem]
    simp only [List.map_cons, List.mem_cons]
    tauto

/-- Lookup of the config layer after phase one's merge and phase two's
re-merge of the same discovered file: a key of the file resolves to the
file's value. -/
theorem doubleMerge_lookup_some {new : List (String × String)} {j v : String}
    (hnd : (new.map Prod.fst).Nodup) (h : new.lookup j = some v) :
    (mergeEntries (mergeEntries [] new) new).lookup j = some v :=
  mergeEntries_lookup_some hnd h _

/-- Lookup of the twice-merged config layer at a key the file lacks. -/
theorem doubleMerge_lookup_none {new : List (String × String)} {j : String}
    (h : j ∉ new.map Prod.fst) :
    (mergeEntries (mergeEntries [] new) new).lookup j = none := by
  rw [mergeEntries_lookup_not_mem h, mergeEntries_lookup_not_mem h]
  rfl

theorem lookup_filterMap_nodup (f : String → Option String) (l : List String)
    (h : l.Nodup) (j : String) :
    (l.filterMap (fun k => (f k).map (fun v => (k, v)))).lookup j
      = if j ∈ l then f j else none := by
  induction l with
  | nil => simp [List.lookup]
  | cons k rest ih =>
    simp only [List.nodup_cons] at h
    by_cases hj : j = k
    · subst hj
      cases hf : f j with
      | none =>
        simp only [List.filterMap_cons, hf, Option.map_none']
        simp [ih h.2, h.1, hf]
      | some v =>
        simp only [List.filterMap_cons, hf, Option.map_some']
        simp [List.lookup, hf]
    · cases hf : f k with
      | none =>
        simp only [List.filterMap_cons, hf, Option.map_none']
        rw [ih h.2]
        simp [List.mem_cons, hj]
      | some v =>
        simp only [List.filterMap_cons, hf, Option.map_some']
        simp only [List.lookup, beq_eq_false_iff_ne.mpr hj]
        rw [ih h.2]
        simp [List.mem_cons, hj]

theorem allSettings_lookup (v : Viper) (env : EnvF) (k : String) :
    (allSettings v env).lookup k = if k ∈ allKeys v then v.find env k else none :=
  lookup_filterMap_nodup _ _ (List.nodup_dedup _) k

theorem mem_allKeys (v : Viper) (k : String) :
    k ∈ allKeys v ↔ k ∈ v.pflags.map Prod.fst ∨ k ∈ v.config.map Prod.fst
      ∨ k ∈ v.defaults.map Prod.fst := by
  simp [allKeys, List.mem_dedup, List.mem_append, or_assoc]

/-! ## Small facts about strings and the environment-name mapping -/

@[simp]
theorem clhEnvName_log_level : clhEnvName "log_level" = "CLH_LOG_LEVEL" := by decide

@[simp]
theorem clhEnvName_config : clhEnvName "config" = "CLH_CONFIG" := by decide

@[simp]
theorem clhEnvName_context : clhEnvName "context" = "CLH_CONTEXT" := by decide

/-- A string strictly shorter than `t` cannot equal `s ++ t`; used to show
that the context-scoped keys bound in `viperSecondPhase` (which end in
`".endpoint"` or `".secret_key"`) never collide with the short global keys
`log_level`, `config` and `context`, whatever the active context is. -/
theorem short_ne_append (s t u : String) (h : u.length < t.length) : u ≠ s ++ t := by
  intro he
  have hl := congrArg String.length he
  rw [String.length_append] at hl
  omega

/-- A string no longer than `t` and different from `t` cannot equal
`s ++ t` either (covers `"log_level"` against `ctx ++ ".endpoint"`, whose
lengths coincide when the context is empty). -/
theorem ne_append_of_le (s t u : String) (hlen : u.length ≤ t.length)
    (hne : u ≠ t) : u ≠ s ++ t := by
  intro he
  have hl := congrArg String.length he
  rw [String.length_append] at hl
  have hs : s.length = 0 := by omega
  have hs0 : s = "" := by
    obtain ⟨d⟩ := s
    simp [String.length] at hs
    simp [hs]
  subst hs0
  have ht : "" ++ t = t := by
    obtain ⟨d⟩ := t
    rfl
  rw [ht] at he
  exact hne he

theorem flattenTop_mem_str {m : YMap} {k s : String}
    (h : (k, TopVal.str s) ∈ m) : (k, s) ∈ flattenTop m := by
  induction m with
  | nil => simp at h
  | cons p rest ih =>
    obtain ⟨k', v'⟩ := p
    rcases List.mem_cons.mp h with h2 | h2
    · cases h2
      simp [flattenTop]
    · cases v' with
      | str w => simp [flattenTop, ih h2]
      | map mm => simp [flattenTop, ih h2]

/-! ## Layer bookkeeping across `viperSecondPhase` -/

theorem viperSecondPhase_config (cli : CliInput) (home used ctx : String)
    (v : Viper) : (viperSecondPhase cli home used ctx v).config = v.config := rfl

/-- For a global key no longer than `".endpoint"` (and not `".endpoint"`
itself), the bindings added by `viperSecondPhase` do not affect the pflag
layer, whatever the active context is. -/
theorem viperSecondPhase_pflags_lookup_global (cli : CliInput)
    (home used ctx key : String) (h : key.length ≤ 9) (he : key ≠ ".endpoint")
    (v : Viper) :
    (viperSecondPhase cli home used ctx v).pflags.lookup key
      = v.pflags.lookup key := by
  have h9 : (".endpoint" : String).length = 9 := by decide
  have h11 : (".secret_key" : String).length = 11 := by decide
  have h1 : key ≠ ctx ++ ".endpoint" := ne_append_of_le ctx ".endpoint" key (by omega) he
  have h2 : key ≠ ctx ++ ".secret_key" := short_ne_append ctx ".secret_key" key (by omega)
  simp only [viperSecondPhase]
  rw [assocSet_lookup_ne _ _ _ _ h2, assocSet_lookup_ne _ _ _ _ h1]

/-- For a global key no longer than `".endpoint"` (and neither `".endpoint"`
nor `config`), the defaults added by `viperSecondPhase` do not affect the
default layer. -/
theorem viperSecondPhase_defaults_lookup_global (cli : CliInput)
    (home used ctx key : String) (h : key.length ≤ 9) (he : key ≠ ".endpoint")
    (hc : key ≠ "config") (v : Viper) :
    (viperSecondPhase cli home used ctx v).defaults.lookup key
      = v.defaults.lookup key := by
  have h9 : (".endpoint" : String).length = 9 := by decide
  have h1 : key ≠ ctx ++ ".endpoint" := ne_append_of_le ctx ".endpoint" key (by omega) he
  simp only [viperSecondPhase]
  rw [assocSet_lookup_ne _ _ _ _ h1, assocSet_lookup_ne _ _ _ _ hc]

/-- The defaults layer after `viperSecondPhase` resolves `config` to the
used file (or the home fallback). -/
theorem viperSecondPhase_defaults_lookup_config (cli : CliInput)
    (home used ctx : String) (v : Viper) :
    (viperSecondPhase cli home used ctx v).defaults.lookup "config"
      = some (if used = "" then home ++ "/.clh/config.yaml" else used) := by
  have h9 : (".endpoint" : String).length = 9 := by decide
  have h6 : ("config" : String).length = 6 := by decide
  have h1 : "config" ≠ ctx ++ ".endpoint" :=
    short_ne_append ctx ".endpoint" "config" (by omega)
  simp only [viperSecondPhase]
  rw [assocSet_lookup_ne _ _ _ _ h1, assocSet_lookup_self]

/-! ## Layer bookkeeping across the merge phases -/

theorem viperFirstPhase_pflags (cli : CliInput) (home : String) (fs : FS) :
    (viperFirstPhase cli home fs).1.pflags = (initViper cli).pflags := by
  simp only [viperFirstPhase]
  cases discoverConfig home fs <;> rfl

theorem viperFirstPhase_defaults (cli : CliInput) (home : String) (fs : FS) :
    (viperFirstPhase cli home fs).1.defaults = (initViper cli).defaults := by
  simp only [viperFirstPhase]
  cases discoverConfig home fs <;> rfl

theorem cobraMergedViper_pflags (cli : CliInput) (home : String) (fs : FS) :
    (cobraMergedViper cli home fs).pflags = (initViper cli).pflags := by
  simp only [cobraMergedViper]
  by_cases h : cli.configFlag.getD "" = "" <;> simp only [h, if_pos, if_neg, if_true, if_false]
  · cases discoverConfig home fs <;> simp [viperFirstPhase_pflags]
  · cases fs (cli.configFlag.getD "") <;> simp [viperFirstPhase_pflags]

theorem cobraMergedViper_defaults (cli : CliInput) (home : String) (fs : FS) :
    (cobraMergedViper cli home fs).defaults = (initViper cli).defaults := by
  simp only [cobraMergedViper]
  by_cases h : cli.configFlag.getD "" = "" <;> simp only [h, if_pos, if_neg, if_true, if_false]
  · cases discoverConfig home fs <;> simp [viperFirstPhase_defaults]
  · cases fs (cli.configFlag.getD "") <;> simp [viperFirstPhase_defaults]

theorem initViper_pflags_lookup_log_level (cli : CliInput) :
    (initViper cli).pflags.lookup "log_level" = some (mkFlag cli.logLevelFlag) := by
  simp [initViper, List.lookup]

theorem initViper_pflags_lookup_config (cli : CliInput) :
    (initViper cli).pflags.lookup "config" = some (mkFlag cli.configFlag) := by
  simp [initViper, List.lookup]

theorem initViper_pflags_lookup_context (cli : CliInput) :
    (initViper cli).pflags.lookup "context" = some (mkFlag cli.contextFlag) := by
  simp [initViper, List.lookup]

/-! ## Generic resolution of the global keys on the final store -/

/-- How the final store resolves `config`: changed `--config` flag first,
then `CLH_CONFIG`, then the merged config layer, then the default installed
by `viperSecondPhase` (the used file, or the home fallback). -/
theorem resolved_find_config (cli : CliInput) (home : String) (env : EnvF)
    (fs : FS) :
    (resolveInvocation cli home env fs).viper.find env "config"
      = (if (mkFlag cli.configFlag).changed then some (mkFlag cli.configFlag).value
         else
           match env "CLH_CONFIG" with
           | some e => some e
           | none =>
             match (cobraMergedViper cli home fs).config.lookup "config" with
             | some c => some c
             | none =>
               some (if usedFile cli home fs = ""
                     then home ++ "/.clh/config.yaml" else usedFile cli home fs)) := by
  simp only [resolveInvocation, Viper.find]
  rw [viperSecondPhase_pflags_lookup_global _ _ _ _ _ (by decide) (by decide),
    cobraMergedViper_pflags, initViper_pflags_lookup_config]
  simp only [clhEnvName_config]
  cases hc : cli.configFlag with
  | some x => simp [mkFlag]
  | none =>
    simp only [mkFlag, Bool.false_eq_true, if_false]
    cases env "CLH_CONFIG" with
    | some e => rfl
    | none =>
      rw [show (viperSecondPhase cli home (usedFile cli home fs)
          (activeCtx cli home env fs) (cobraMergedViper cli home fs)).config
          = (cobraMergedViper cli home fs).config from rfl]
      cases (cobraMergedViper cli home fs).config.lookup "config" with
      | some c => rfl
      | none =>
        rw [viperSecondPhase_defaults_lookup_config]

/-- How the final store resolves `log_level`: changed `--log_level` flag
first, then `CLH_LOG_LEVEL`, then the merged config layer, then the
built-in default `"info"`. -/
theorem resolved_find_log_level (cli : CliInput) (home : String) (env : EnvF)
    (fs : FS) :
    (resolveInvocation cli home env fs).viper.find env "log_level"
      = (if (mkFlag cli.logLevelFlag).changed then some (mkFlag cli.logLevelFlag).value
         else
           match env "CLH_LOG_LEVEL" with
           | some e => some e
           | none =>
             match (cobraMergedViper cli home fs).config.lookup "log_level" with
             | some c => some c
             | none => some "info") := by
  simp only [resolveInvocation, Viper.find]
  rw [viperSecondPhase_pflags_lookup_global _ _ _ _ _ (by decide) (by decide),
    cobraMergedViper_pflags, initViper_pflags_lookup_log_level]
  simp only [clhEnvName_log_level]
  cases hc : cli.logLevelFlag with
  | some x => simp [mkFlag]
  | none =>
    simp only [mkFlag, Bool.false_eq_true, if_false]
    cases env "CLH_LOG_LEVEL" with
    | some e => rfl
    | none =>
      rw [show (viperSecondPhase cli home (usedFile cli home fs)
          (activeCtx cli home env fs) (cobraMergedViper cli home fs)).config
          = (cobraMergedViper cli home fs).config from rfl]
      cases (cobraMergedViper cli home fs).config.lookup "log_level" with
      | some c => rfl
      | none =>
        rw [viperSecondPhase_defaults_lookup_global _ _ _ _ _ (by decide) (by decide)
            (by decide), cobraMergedViper_defaults]
        simp [initViper, List.lookup]

/-- How the merged (phase-two) store resolves `context` — the value
`cobraSecondPhase` reads when the context flag variable is empty: changed
flag first, then `CLH_CONTEXT`, then the merged config layer, then the
built-in default `"default"`. -/
theorem merged_find_context (cli : CliInput) (home : String) (env : EnvF)
    (fs : FS) :
    (cobraMergedViper cli home fs).find env "context"
      = (if (mkFlag cli.contextFlag).changed then some (mkFlag cli.contextFlag).value
         else
           match env "CLH_CONTEXT" with
           | some e => some e
           | none =>
             match (cobraMergedViper cli home fs).config.lookup "context" with
             | some c => some c
             | none => some "default") := by
  simp only [Viper.find]
  rw [cobraMergedViper_pflags, initViper_pflags_lookup_context]
  simp only [clhEnvName_context]
  cases hc : cli.contextFlag with
  | some x => simp [mkFlag]
  | none =>
    simp only [mkFlag, Bool.false_eq_true, if_false]
    cases env "CLH_CONTEXT" with
    | some e => rfl
    | none =>
      cases (cobraMergedViper cli home fs).config.lookup "context" with
      | some c => rfl
      | none =>
        rw [cobraMergedViper_defaults]
        simp [initViper, List.lookup]

/-! ## Scenario lemmas: one config file at the home search path -/

theorem discoverConfig_home_fsOf (cfg : YMap) :
    discoverConfig "/h" (fsOf "/h/.clh/config.yaml" cfg) = some "/h/.clh/config.yaml" := by
  simp [discoverConfig, searchPaths, fsOf, List.find?]

theorem usedFile_home_fsOf (cli : CliInput) (hc : cli.configFlag = none) (cfg : YMap) :
    usedFile cli "/h" (fsOf "/h/.clh/config.yaml" cfg) = "/h/.clh/config.yaml" := by
  simp [usedFile, hc, viperFirstPhase, discoverConfig_home_fsOf]

theorem cobraMergedViper_home_config (cli : CliInput) (hc : cli.configFlag = none)
    (cfg : YMap) :
    (cobraMergedViper cli "/h" (fsOf "/h/.clh/config.yaml" cfg)).config
      = mergeEntries (mergeEntries [] (flattenTop cfg)) (flattenTop cfg) := by
  simp [cobraMergedViper, hc, viperFirstPhase, discoverConfig_home_fsOf, initViper, fsOf]

theorem resolved_getString_config_home (cli : CliInput) (hc : cli.configFlag = none)
    (cfg : YMap) (hcfg : "config" ∉ (flattenTop cfg).map Prod.fst) :
    (resolveInvocation cli "/h" envNone (fsOf "/h/.clh/config.yaml" cfg)).viper.getString
      envNone "config" = "/h/.clh/config.yaml" := by
  rw [Viper.getString, resolved_find_config]
  rw [cobraMergedViper_home_config cli hc, usedFile_home_fsOf cli hc]
  simp [hc, mkFlag, envNone, doubleMerge_lookup_none hcfg]

/-! ## The claims -/

/-- Claim C6, counterexample.  The claim says the fallback on an unparseable
`log_level` is the *most verbose* level.  At the concrete input `"bogus"`
the code falls back to `DebugLevel`, yet `trace` is a recognized level that
is strictly more verbose than `debug`, so the fallback is not the most
verbose level. -/
theorem C6_counterexample :
    parseLevel "bogus" = none
    ∧ (setLogLevel "bogus").level = Level.debug
    ∧ parseLevel "trace" = some Level.trace
    ∧ ¬ (∀ l : Level, l.verbosity ≤ (setLogLevel "bogus").level.verbosity) := by
  refine ⟨by decide, by decide, by decide, fun hall => ?_⟩
  exact absurd (hall Level.trace) (by decide)

/-- Claim C6, amended: for every stored `log_level` value that does not
parse as a recognized level name, `setLogLevel` falls back to the debug
level (the most verbose level recognized other than `trace`), emits an
error-severity diagnostic, and does not abort the process. -/
theorem C6_amended_loglevel_fallback (s : String) (h : parseLevel s = none) :
    setLogLevel s = ⟨Level.debug, true, false⟩
    ∧ ∀ l : Level, l ≠ Level.trace → l.verbosity ≤ (setLogLevel s).level.verbosity := by
  have hs : setLogLevel s = ⟨Level.debug, true, false⟩ := by
    simp [setLogLevel, h]
  refine ⟨hs, fun l hl => ?_⟩
  rw [hs]
  cases l
  case trace => exact absurd rfl hl
  all_goals decide

/-- Claim C6, witness: the unparseable value `"bogus"`. -/
theorem C6_witness :
    setLogLevel "bogus" = ⟨Level.debug, true, false⟩
    ∧ ∀ l : Level, l ≠ Level.trace →
        l.verbosity ≤ (setLogLevel "bogus").level.verbosity :=
  C6_amended_loglevel_fallback "bogus" (by decide)

/-- Claim C9, confirmed: when no readable file exists at the resolved config
path, `use-context` aborts (`log.Panic`: a logged panic-severity
diagnostic and a non-zero exit) without writing anything; and whenever
`use-context` does write a file, a file already existed at that path, so
the command never creates a config file that did not already exist. -/
theorem C9_use_context_no_create (args : List String) (cli : CliInput)
    (home : String) (env : EnvF) (fs : FS) :
    (fs ((resolveInvocation cli home env fs).viper.getString env "config") = none →
      useContextRun args cli home env fs = .abort)
    ∧ ∀ p w, useContextRun args cli home env fs = .wrote p w → (fs p).isSome := by
  constructor
  · intro h
    simp only [useContextRun]
    rw [h]
  · intro p w hw
    simp only [useContextRun] at hw
    cases hfs : fs ((resolveInvocation cli home env fs).viper.getString env "config") with
    | none =>
      rw [hfs] at hw
      exact absurd hw (by simp)
    | some cfg =>
      rw [hfs] at hw
      simp only [UseContextOutcome.wrote.injEq] at hw
      rw [← hw.1, hfs]
      rfl

/-- Claim C9, witness: an empty file system. -/
theorem C9_witness :
    useContextRun ["foo"] cliNone "/h" envNone fsEmpty = UseContextOutcome.abort :=
  (C9_use_context_no_create ["foo"] cliNone "/h" envNone fsEmpty).1 rfl

/-- Claim C3, counterexample.  With no config file anywhere and no `--config`
flag, the persistence target path (the resolved `config` key) is indeed
`<home>/.clh/config.yaml`, but the `config` command does not create that
file: it writes to the path with `".test.yaml"` appended, a different
file. -/
theorem C3_counterexample :
    (resolveInvocation cliNone "/h" envNone fsEmpty).viper.getString envNone "config"
        = "/h/.clh/config.yaml"
    ∧ (configCmdRun cliNone "/h" envNone fsEmpty).path = "/h/.clh/config.yaml.test.yaml"
    ∧ "/h/.clh/config.yaml.test.yaml" ≠ "/h/.clh/config.yaml" :=
  ⟨by decide, by decide, by decide⟩

/-- Claim C3, amended: if no config file exists anywhere on the discovery
search path and no `--config` flag is given, the persistence target path
(the resolved `config` key) equals `<home>/.clh/config.yaml`, and the
`config` command writes to exactly that path with `".test.yaml"` appended
(no parent directory is created by the command). -/
theorem C3_amended_persist_path (home : String) :
    (resolveInvocation cliNone home envNone fsEmpty).viper.getString envNone "config"
        = home ++ "/.clh/config.yaml"
    ∧ (configCmdRun cliNone home envNone fsEmpty).path
        = home ++ "/.clh/config.yaml" ++ ".test.yaml" := by
  have hfind : (resolveInvocation cliNone home envNone fsEmpty).viper.find envNone "config"
      = some (home ++ "/.clh/config.yaml") := by
    rw [resolved_find_config]
    simp [cliNone, mkFlag, envNone, usedFile, viperFirstPhase, discoverConfig,
      searchPaths, fsEmpty, cobraMergedViper, initViper, List.lookup, List.find?]
  constructor
  · simp [Viper.getString, hfind]
  · simp [configCmdRun, Viper.getString, hfind]

/-- Claim C7, counterexample.  The claim says phase two binds the `username`
flag under the active context.  In the concrete invocation
`clh config -e https://x -u bob -k secret -c staging` (no file, clean
environment) the resolved store has nothing at `staging.username`: the
`--username` flag is never bound. -/
theorem C7_counterexample :
    (cliC7 (some "https://x") (some "bob") (some "secret")).usernameFlag = some "bob"
    ∧ (resolveInvocation (cliC7 (some "https://x") (some "bob") (some "secret")) "/h"
        envNone fsEmpty).viper.find envNone "staging.username" = none
    ∧ (none : Option String) ≠ some "bob" :=
  ⟨rfl, by decide, by decide⟩

/-- Claim C7, amended: with context `staging`, no file and a clean
environment, phase two binds only the `endpoint` and `secret_key` flags
under the active context: `staging.endpoint` resolves to the flag value,
defaulting to the fixed URL `https://api.cloudlethub.com/`;
`staging.secret_key` resolves to the flag value but — being bound with
flag default `""` — resolves to the empty string rather than being absent
when the flag is not supplied; and `staging.username` is absent whatever
the `--username` flag says. -/
theorem C7_amended_context_bindings (ev eu es : Option String) :
    ((resolveInvocation (cliC7 ev eu es) "/h" envNone fsEmpty).viper.find envNone
        "staging.endpoint" = ev.or (some "https://api.cloudlethub.com/"))
    ∧ ((resolveInvocation (cliC7 ev eu es) "/h" envNone fsEmpty).viper.find envNone
        "staging.secret_key" = es.or (some ""))
    ∧ ((resolveInvocation (cliC7 ev eu es) "/h" envNone fsEmpty).viper.find envNone
        "staging.username" = none) := by
  rcases ev with _ | e <;> rcases es with _ | s2 <;>
    refine ⟨?_, ?_, ?_⟩ <;>
    simp [resolveInvocation, viperSecondPhase, cobraMergedViper, viperFirstPhase,
      initViper, usedFile, activeCtx, discoverConfig, searchPaths, fsEmpty, envNone,
      Viper.find, Viper.getString, mkFlag, cliC7, cliNone, assocSet, List.lookup,
      List.find?, Option.or, clhEnvName]

/-- Claim C1, counterexample.  The claim puts config files above environment
variables.  With `CLH_LOG_LEVEL=warn` in the environment and a discovered
config file holding `log_level: error` (no flags), the claimed precedence
resolves `log_level` to `"error"`, but the code resolves it to `"warn"`:
in viper the environment outranks config files. -/
theorem C1_counterexample :
    (resolveInvocation cliNone "/h" (envOf "CLH_LOG_LEVEL" "warn")
        (fsOf "/h/.clh/config.yaml" [("log_level", TopVal.str "error")])).viper.getString
        (envOf "CLH_LOG_LEVEL" "warn") "log_level" = "warn"
    ∧ specResolve none none (some "error") (some "warn") (some "info") = some "error"
    ∧ ("warn" : String) ≠ "error" :=
  ⟨by decide, by decide, by decide⟩

/-- Claim C1, amended: for a key defined in several sources, the resolved
value is the value from the highest-precedence source present in the order
CLI flag > prefixed environment variable > file given via `--config` >
discovered standard-path file > built-in default — demonstrated end to end
on `log_level` with every combination of present and absent sources. -/
theorem C1_amended_precedence (fv ev dv xv : Option String) :
    (resolveInvocation (cliC1 fv xv) "/h" (envOpt "CLH_LOG_LEVEL" ev)
        (fsC1 dv xv)).viper.find (envOpt "CLH_LOG_LEVEL" ev) "log_level"
      = fv.or (ev.or (xv.or (dv.or (some "info")))) := by
  rw [resolved_find_log_level]
  have hcfg : (cobraMergedViper (cliC1 fv xv) "/h" (fsC1 dv xv)).config.lookup "log_level"
      = xv.or dv := by
    rcases xv with _ | x <;> rcases dv with _ | d <;>
      simp [cobraMergedViper, viperFirstPhase, initViper, discoverConfig, searchPaths,
        fsC1, cliC1, cliNone, mergeEntries, assocSet, flattenTop, List.find?,
        List.lookup, Option.or, mkFlag]
  rw [hcfg]
  have henv : envOpt "CLH_LOG_LEVEL" ev "CLH_LOG_LEVEL" = ev := by simp [envOpt]
  rw [henv]
  rcases fv with _ | f <;> rcases ev with _ | e <;> rcases xv with _ | x <;>
    rcases dv with _ | d <;> simp [cliC1, cliNone, mkFlag, Option.or]

/-- Claim C8, confirmed: whenever `use-context` with a positional argument
rewrites an existing file, the rewritten file is exactly the prior parsed
file with the top-level `context` key set to the positional argument:
every other key keeps its prior value, and no flag- or
environment-supplied values are added. -/
theorem C8_use_context_frame (cli : CliInput) (home : String) (env : EnvF)
    (fs : FS) (a : String) (rest : List String) (prior : YMap)
    (hp : fs ((resolveInvocation cli home env fs).viper.getString env "config")
      = some prior) :
    useContextRun (a :: rest) cli home env fs
      = .wrote ((resolveInvocation cli home env fs).viper.getString env "config")
          (assocSet prior "context" (TopVal.str a))
    ∧ (∀ k, k ≠ "context" →
        (assocSet prior "context" (TopVal.str a)).lookup k = prior.lookup k)
    ∧ (assocSet prior "context" (TopVal.str a)).lookup "context"
        = some (TopVal.str a) := by
  refine ⟨?_, fun k hk => assocSet_lookup_ne _ _ _ _ hk, assocSet_lookup_self _ _ _⟩
  simp only [useContextRun]
  rw [hp]

/-- Claim C8, witness: a concrete prior file with a `prod` context,
`log_level` and a prior `context` value. -/
theorem C8_witness :
    useContextRun ["foo"] cliNone "/h" envNone (fsOf "/h/.clh/config.yaml" priorC8)
      = .wrote "/h/.clh/config.yaml" (assocSet priorC8 "context" (TopVal.str "foo"))
    ∧ (∀ k, k ≠ "context" →
        (assocSet priorC8 "context" (TopVal.str "foo")).lookup k = priorC8.lookup k)
    ∧ (assocSet priorC8 "context" (TopVal.str "foo")).lookup "context"
        = some (TopVal.str "foo") := by
  have hp : (fsOf "/h/.clh/config.yaml" priorC8)
      ((resolveInvocation cliNone "/h" envNone
        (fsOf "/h/.clh/config.yaml" priorC8)).viper.getString envNone "config")
      = some priorC8 := by decide
  have h := C8_use_context_frame cliNone "/h" envNone
    (fsOf "/h/.clh/config.yaml" priorC8) "foo" [] priorC8 hp
  have hq : (resolveInvocation cliNone "/h" envNone
      (fsOf "/h/.clh/config.yaml" priorC8)).viper.getString envNone "config"
      = "/h/.clh/config.yaml" := by decide
  rw [hq] at h
  exact h

/-- Claim C4, counterexample.  The claim says *every* persistence operation
writes the entire resolved store.  Concretely, with `--log_level debug` on
the command line, the resolved store holds `log_level = debug`, yet
`use-context foo` writes back the prior file's `log_level: info`: the
`use-context` write is the re-parsed file with only `context` replaced,
not the resolved store. -/
theorem C4_counterexample :
    cliC4.logLevelFlag = some "debug"
    ∧ useContextRun ["foo"] cliC4 "/h" envNone (fsOf "/h/.clh/config.yaml" priorC4)
        = .wrote "/h/.clh/config.yaml"
            [("log_level", TopVal.str "info"), ("context", TopVal.str "foo")]
    ∧ (resolveInvocation cliC4 "/h" envNone
        (fsOf "/h/.clh/config.yaml" priorC4)).viper.find envNone "log_level"
      = some "debug"
    ∧ (flattenTop [("log_level", TopVal.str "info"),
        ("context", TopVal.str "foo")]).lookup "log_level" ≠ some "debug" :=
  ⟨rfl, by decide, by decide, by decide⟩

/-- Claim C4, amended: the `config` command writes the entire resolved store
— every known key of every context, resolved through the full precedence
chain, with no filtering — while `use-context` instead rewrites the
previously persisted file, changing only the top-level `context` key and
incorporating no other resolved values. -/
theorem C4_amended_persistence_scope (cli : CliInput) (home : String)
    (env : EnvF) (fs : FS) :
    (∀ k v, (resolveInvocation cli home env fs).viper.find env k = some v →
        k ∈ allKeys (resolveInvocation cli home env fs).viper →
        (configCmdRun cli home env fs).contents.lookup k = some v)
    ∧ (∀ a rest prior,
        fs ((resolveInvocation cli home env fs).viper.getString env "config")
          = some prior →
        useContextRun (a :: rest) cli home env fs
          = .wrote ((resolveInvocation cli home env fs).viper.getString env "config")
              (assocSet prior "context" (TopVal.str a))) := by
  constructor
  · intro k v hf hm
    rw [show (configCmdRun cli home env fs).contents
        = allSettings (resolveInvocation cli home env fs).viper env from rfl]
    rw [allSettings_lookup, if_pos hm, hf]
  · intro a rest prior hp
    simp only [useContextRun]
    rw [hp]

/-- Claim C4, witness: the `config` write carries the default `log_level`
key, and a concrete `use-context foo` rewrites the prior file with only
`context` replaced. -/
theorem C4_witness :
    (configCmdRun cliNone "/h" envNone fsEmpty).contents.lookup "log_level"
        = some "info"
    ∧ useContextRun ["foo"] cliNone "/h" envNone (fsOf "/h/.clh/config.yaml" priorC4)
        = .wrote "/h/.clh/config.yaml" (assocSet priorC4 "context" (TopVal.str "foo")) := by
  constructor
  · exact (C4_amended_persistence_scope cliNone "/h" envNone fsEmpty).1
      "log_level" "info" (by decide) (by decide)
  · have h := (C4_amended_persistence_scope cliNone "/h" envNone
      (fsOf "/h/.clh/config.yaml" priorC4)).2 "foo" [] priorC4 (by decide)
    have hq : (resolveInvocation cliNone "/h" envNone
        (fsOf "/h/.clh/config.yaml" priorC4)).viper.getString envNone "config"
        = "/h/.clh/config.yaml" := by decide
    rw [hq] at h
    exact h

/-- Claim C10, counterexample.  The claim treats an empty-string `--context`
value like an absent flag.  Concretely, with the flag explicitly set to
`""` and a discovered file configuring `context: prod`, the active context
resolves to `""` — not to the configured `"prod"`, nor to `"default"`:
the explicitly-changed flag wins the `viper.GetString("context")` re-read. -/
theorem C10_counterexample :
    ({ cliNone with contextFlag := some "" } : CliInput).contextFlag = some ""
    ∧ (flattenTop cfgC10).lookup "context" = some "prod"
    ∧ (resolveInvocation { cliNone with contextFlag := some "" } "/h" envNone
        (fsOf "/h/.clh/config.yaml" cfgC10)).activeContext = ""
    ∧ ("" : String) ≠ "prod" ∧ ("" : String) ≠ "default" :=
  ⟨rfl, by decide, by decide, by decide, by decide⟩

/-- Claim C10, amended: a *given* `--context` flag value is taken verbatim
as the active context — including the empty string, because the changed
flag then wins the `viper.GetString("context")` re-read — while an
*absent* flag falls back to `CLH_CONTEXT`, then the file's `context` key,
then the built-in `"default"`. -/
theorem C10_amended_context_flag (co e : Option String) (cfg : YMap)
    (hnd : ((flattenTop cfg).map Prod.fst).Nodup) : C10Spec co e cfg := by
  unfold C10Spec
  rcases co with _ | v
  · show activeCtx { cliNone with contextFlag := none } "/h"
        (envOpt "CLH_CONTEXT" e) (fsOf "/h/.clh/config.yaml" cfg)
      = (e.or ((flattenTop cfg).lookup "context")).getD "default"
    simp only [activeCtx, Option.getD, Viper.getString]
    rw [merged_find_context]
    simp only [mkFlag, Bool.false_eq_true, if_false]
    have henv : envOpt "CLH_CONTEXT" e "CLH_CONTEXT" = e := by simp [envOpt]
    rw [henv]
    rcases e with _ | ev
    · rw [cobraMergedViper_home_config _ rfl cfg]
      cases hl : (flattenTop cfg).lookup "context" with
      | some c =>
        rw [doubleMerge_lookup_some hnd hl]
        simp [Option.or]
      | none =>
        rw [doubleMerge_lookup_none (not_mem_keys_of_lookup_eq_none hl)]
        simp [Option.or]
    · simp [Option.or]
  · show activeCtx { cliNone with contextFlag := some v } "/h"
        (envOpt "CLH_CONTEXT" e) (fsOf "/h/.clh/config.yaml" cfg) = v
    by_cases hv : v = ""
    · subst hv
      simp only [activeCtx, Option.getD, Viper.getString, if_pos]
      rw [merged_find_context]
      simp [mkFlag]
    · simp [activeCtx, hv]

/-- Claim C10, witness: no flag, no environment, a file configuring
`context: prod`. -/
theorem C10_witness : C10Spec none none cfgC10 :=
  C10_amended_context_flag none none cfgC10 (by decide)

/-- Claim C5, confirmed: running `use-context foo` on a previously
persisted file (discovered at the home search path, parseable, not
overriding the `config` path key, with no key clashes after flattening)
rewrites that file with `context: foo`, and a fresh invocation with no
context flag and a clean environment on the rewritten file resolves the
active context to `"foo"`. -/
theorem C5_use_context_roundtrip (cfg : YMap)
    (hnd : ((flattenTop (assocSet cfg "context" (TopVal.str "foo"))).map Prod.fst).Nodup)
    (hcfg : "config" ∉ (flattenTop cfg).map Prod.fst) :
    C5Spec cfg := by
  constructor
  · simp only [useContextRun]
    rw [resolved_getString_config_home cliNone rfl cfg hcfg]
    rw [show (fsOf "/h/.clh/config.yaml" cfg) "/h/.clh/config.yaml" = some cfg
      by simp [fsOf]]
  · show activeCtx cliNone "/h" envNone
        (fsOf "/h/.clh/config.yaml" (assocSet cfg "context" (TopVal.str "foo"))) = "foo"
    have hlk : (flattenTop (assocSet cfg "context" (TopVal.str "foo"))).lookup "context"
        = some "foo" :=
      lookup_of_mem_nodup hnd (flattenTop_mem_str (assocSet_mem_self _ _ _))
    simp only [activeCtx, cliNone, Option.getD, Viper.getString, if_pos]
    rw [merged_find_context]
    rw [cobraMergedViper_home_config _ rfl _]
    rw [doubleMerge_lookup_some hnd hlk]
    simp [mkFlag, envNone]

/-- Claim C5, witness: a prior file holding only a `prod` context. -/
theorem C5_witness : C5Spec cfgC5 :=
  C5_use_context_roundtrip cfgC5 (by decide) (by decide)

/-- Claim C2, counterexample.  The claim says the persisted file shows
`staging.username = bob`.  Concretely, running
`clh config -e https://x -u bob -k secret -c staging` over a prior file
holding a `prod` context persists nothing at `staging.username`: the
`--username` flag is never bound, so `bob` is dropped.  (The write also
goes to the resolved path with `".test.yaml"` appended.) -/
theorem C2_counterexample :
    cliC2.usernameFlag = some "bob"
    ∧ (configCmdRun cliC2 "/h" envNone
        (fsOf "/h/.clh/config.yaml" priorC2)).contents.lookup "staging.username" = none
    ∧ (none : Option String) ≠ some "bob" :=
  ⟨rfl, by decide, by decide⟩

/-- Claim C2, amended: `clh config -e https://x -u bob -k secret -c staging`
over any previously persisted file (discovered at the home search path,
with duplicate-free flattened keys and no `config` path override) writes to
the resolved path with `".test.yaml"` appended a store in which
`staging.endpoint = https://x` and `staging.secret_key = secret`;
`staging.username` keeps the prior file's value (absent if the prior file
had none — the `--username` flag has no effect); and every prior key other
than the global keys and the two bound staging keys keeps the value it had
in the prior file. -/
theorem C2_amended_config_persist (prior : YMap)
    (hnd : ((flattenTop prior).map Prod.fst).Nodup)
    (hcfg : "config" ∉ (flattenTop prior).map Prod.fst) :
    C2Spec prior := by
  have hc : cliC2.configFlag = none := rfl
  have hpath := resolved_getString_config_home cliC2 hc prior hcfg
  have hctx : activeCtx cliC2 "/h" envNone (fsOf "/h/.clh/config.yaml" prior)
      = "staging" := by
    simp [activeCtx, cliC2, cliNone]
  have hvip : (resolveInvocation cliC2 "/h" envNone
        (fsOf "/h/.clh/config.yaml" prior)).viper
      = viperSecondPhase cliC2 "/h"
          (usedFile cliC2 "/h" (fsOf "/h/.clh/config.yaml" prior)) "staging"
          (cobraMergedViper cliC2 "/h" (fsOf "/h/.clh/config.yaml" prior)) := by
    simp only [resolveInvocation]
    rw [hctx]
  have hse : ("staging" ++ ".endpoint" : String) = "staging.endpoint" := by decide
  have hsk : ("staging" ++ ".secret_key" : String) = "staging.secret_key" := by decide
  have hcontents : (configCmdRun cliC2 "/h" envNone
        (fsOf "/h/.clh/config.yaml" prior)).contents
      = allSettings (resolveInvocation cliC2 "/h" envNone
          (fsOf "/h/.clh/config.yaml" prior)).viper envNone := rfl
  have hpe : (resolveInvocation cliC2 "/h" envNone
        (fsOf "/h/.clh/config.yaml" prior)).viper.pflags.lookup "staging.endpoint"
      = some (mkFlag (some "https://x")) := by
    rw [hvip]
    simp only [viperSecondPhase, hse, hsk]
    rw [assocSet_lookup_ne _ _ _ _ (by decide), assocSet_lookup_self]
    rfl
  have hps : (resolveInvocation cliC2 "/h" envNone
        (fsOf "/h/.clh/config.yaml" prior)).viper.pflags.lookup "staging.secret_key"
      = some (mkFlag (some "secret")) := by
    rw [hvip]
    simp only [viperSecondPhase, hse, hsk]
    rw [assocSet_lookup_self]
    rfl
  have hcl : (resolveInvocation cliC2 "/h" envNone
        (fsOf "/h/.clh/config.yaml" prior)).viper.config
      = mergeEntries (mergeEntries [] (flattenTop prior)) (flattenTop prior) := by
    rw [hvip]
    exact cobraMergedViper_home_config cliC2 hc prior
  have hfind_se : (resolveInvocation cliC2 "/h" envNone
        (fsOf "/h/.clh/config.yaml" prior)).viper.find envNone "staging.endpoint"
      = some "https://x" := by
    simp [Viper.find, hpe, mkFlag]
  have hfind_sk : (resolveInvocation cliC2 "/h" envNone
        (fsOf "/h/.clh/config.yaml" prior)).viper.find envNone "staging.secret_key"
      = some "secret" := by
    simp [Viper.find, hps, mkFlag]
  have hpu : (resolveInvocation cliC2 "/h" envNone
        (fsOf "/h/.clh/config.yaml" prior)).viper.pflags.lookup "staging.username"
      = none := by
    rw [hvip]
    simp only [viperSecondPhase, hse, hsk]
    rw [assocSet_lookup_ne _ _ _ _ (by decide), assocSet_lookup_ne _ _ _ _ (by decide),
      cobraMergedViper_pflags]
    simp [initViper, List.lookup]
  have hdu : (resolveInvocation cliC2 "/h" envNone
        (fsOf "/h/.clh/config.yaml" prior)).viper.defaults.lookup "staging.username"
      = none := by
    rw [hvip]
    simp only [viperSecondPhase, hse, hsk]
    rw [assocSet_lookup_ne _ _ _ _ (by decide), assocSet_lookup_ne _ _ _ _ (by decide),
      cobraMergedViper_defaults]
    simp [initViper, List.lookup]
  have hfind_su : (resolveInvocation cliC2 "/h" envNone
        (fsOf "/h/.clh/config.yaml" prior)).viper.find envNone "staging.username"
      = (flattenTop prior).lookup "staging.username" := by
    simp only [Viper.find, hpu, envNone]
    rw [hcl]
    cases hu : (flattenTop prior).lookup "staging.username" with
    | some w => rw [doubleMerge_lookup_some hnd hu]
    | none =>
      rw [doubleMerge_lookup_none (not_mem_keys_of_lookup_eq_none hu), hdu]
  refine ⟨?_, ?_, ?_, ?_, ?_⟩
  · rw [show (configCmdRun cliC2 "/h" envNone
        (fsOf "/h/.clh/config.yaml" prior)).path
        = (resolveInvocation cliC2 "/h" envNone
            (fsOf "/h/.clh/config.yaml" prior)).viper.getString envNone "config"
          ++ ".test.yaml" from rfl]
    rw [hpath]
    decide
  · have hm : "staging.endpoint" ∈ allKeys (resolveInvocation cliC2 "/h" envNone
        (fsOf "/h/.clh/config.yaml" prior)).viper :=
      (mem_allKeys _ _).mpr (Or.inl (mem_keys_of_lookup hpe))
    rw [hcontents, allSettings_lookup, if_pos hm, hfind_se]
  · have hm : "staging.secret_key" ∈ allKeys (resolveInvocation cliC2 "/h" envNone
        (fsOf "/h/.clh/config.yaml" prior)).viper :=
      (mem_allKeys _ _).mpr (Or.inl (mem_keys_of_lookup hps))
    rw [hcontents, allSettings_lookup, if_pos hm, hfind_sk]
  · rw [hcontents, allSettings_lookup]
    by_cases hm : "staging.username" ∈ allKeys (resolveInvocation cliC2 "/h" envNone
        (fsOf "/h/.clh/config.yaml" prior)).viper
    · rw [if_pos hm, hfind_su]
    · rw [if_neg hm]
      cases hu : (flattenTop prior).lookup "staging.username" with
      | none => rfl
      | some w =>
        exact absurd ((mem_allKeys _ _).mpr (Or.inr (Or.inl (by
          rw [hcl]
          exact (mergeEntries_keys_mem _ _ _).mpr
            (Or.inr (mem_keys_of_lookup hu)))))) hm
  · intro k v hk hnotin
    simp only [List.mem_cons, List.mem_singleton, not_or] at hnotin
    obtain ⟨h1, h2, h3, h4, h5, -⟩ := hnotin
    have hpk : (resolveInvocation cliC2 "/h" envNone
          (fsOf "/h/.clh/config.yaml" prior)).viper.pflags.lookup k = none := by
      rw [hvip]
      simp only [viperSecondPhase, hse, hsk]
      rw [assocSet_lookup_ne _ _ _ _ h5, assocSet_lookup_ne _ _ _ _ h4,
        cobraMergedViper_pflags]
      exact lookup_eq_none_of_not_mem (by simp [initViper, h1, h2, h3])
    have hfind_k : (resolveInvocation cliC2 "/h" envNone
          (fsOf "/h/.clh/config.yaml" prior)).viper.find envNone k = some v := by
      simp only [Viper.find, hpk, envNone]
      rw [hcl, doubleMerge_lookup_some hnd hk]
    have hm : k ∈ allKeys (resolveInvocation cliC2 "/h" envNone
        (fsOf "/h/.clh/config.yaml" prior)).viper :=
      (mem_allKeys _ _).mpr (Or.inr (Or.inl (by
        rw [hcl]
        exact (mergeEntries_keys_mem _ _ _).mpr (Or.inr (mem_keys_of_lookup hk)))))
    rw [hcontents, allSettings_lookup, if_pos hm, hfind_k]

/-- Claim C2, witness: a prior file holding a fully populated `prod`
context. -/
theorem C2_witness : C2Spec priorC2 :=
  C2_amended_config_persist priorC2 (by decide) (by decide)

end Clh
